import Mathlib

/-!
# Urlbar tips experiment: eligibility evaluator and engagement state machine

A shallow embedding of `src/background.js`.  The module-level variables of the
script (`studyBranch`, `currentTip`, `showedTipInCurrentEngagement`,
`showedTipInCurrentSession`, `storage`) become the fields of `World`, together
with the part of the host the script reads and writes: the `tipsShownCount` key
of `browser.storage.local`, the callbacks queued by `setTimeout`, and the logs
of the `keyedScalarAdd` and `browser.urlbar.search` calls.  Every listener is a
function on `World`; a listener that throws returns `Except.error`.

Each listener is modelled as running to completion before the next one starts.
Timestamps are integers (milliseconds); they stay far below `2^53`, where the
JavaScript number arithmetic used by the script is exact.
-/

namespace UrlbarTips

/-! ## Constants -/

/-- The possible study branches (`BRANCHES`). -/
inductive BRANCHES where
  | CONTROL
  | TREATMENT
  deriving DecidableEq, Repr

/-- The possible tips to show (`TIPS`); `NONE` is the empty string of the source,
the only falsy value of the three. -/
inductive TIPS where
  | NONE
  | ONBOARD
  | REDIRECT
  deriving DecidableEq, Repr

/-- JavaScript truthiness of a tip string: only `TIPS.NONE = ""` is falsy. -/
def TIPS.truthy : TIPS → Bool
  | .NONE => false
  | .ONBOARD => true
  | .REDIRECT => true

/-- Homepages of Google (`SUPPORTED_ENGINES`, the "Google" entry). -/
def GOOGLE_HOMEPAGES : List String :=
  [ "www.google.ac", "www.google.ac/webhp",
    "www.google.as", "www.google.as/webhp",
    "www.google.com.ai", "www.google.com.ai/webhp",
    "www.google.com.au", "www.google.com.au/webhp",
    "www.google.bs", "www.google.bs/webhp",
    "www.google.vg", "www.google.vg/webhp",
    "www.google.ca", "www.google.ca/webhp",
    "www.google.co.ck", "www.google.co.ck/webhp",
    "www.google.fm", "www.google.fm/webhp",
    "www.google.com.fj", "www.google.com.fj/webhp",
    "www.google.com.jm", "www.google.com.jm/webhp",
    "www.google.je", "www.google.je/webhp",
    "www.google.ki", "www.google.ki/webhp",
    "www.google.ie", "www.google.ie/webhp",
    "www.google.im", "www.google.im/webhp",
    "www.google.co.nz", "www.google.co.nz/webhp",
    "www.google.com.pr", "www.google.com.pr/webhp",
    "www.google.ms", "www.google.ms/webhp",
    "www.google.com.nf", "www.google.com.nf/webhp",
    "www.google.com.pg", "www.google.com.pg/webhp",
    "www.google.com.ph", "www.google.com.ph/webhp",
    "www.google.pn", "www.google.pn/webhp",
    "www.google.com.sg", "www.google.com.sg/webhp",
    "www.google.sh", "www.google.sh/webhp",
    "www.google.com.vc", "www.google.com.vc/webhp",
    "www.google.ws", "www.google.ws/webhp",
    "www.google.com.sl", "www.google.com.sl/webhp",
    "www.google.com.sb", "www.google.com.sb/webhp",
    "www.google.co.za", "www.google.co.za/webhp",
    "www.google.to", "www.google.to/webhp",
    "www.google.tt", "www.google.tt/webhp",
    "www.google.co.uk", "www.google.co.uk/webhp",
    "www.google.com", "www.google.com/webhp",
    "www.google.co.vi", "www.google.co.vi/webhp" ]

/-- The map from engine names to their homepages (`SUPPORTED_ENGINES`), as an
association list in the order of the source. -/
def SUPPORTED_ENGINES : List (String × List String) :=
  [ ("Bing", ["www.bing.com"]),
    ("DuckDuckGo", ["duckduckgo.com", "start.duckduckgo.com"]),
    ("Google", GOOGLE_HOMEPAGES) ]

/-- The maximum number of times a tip is shown across all sessions. -/
def MAX_SHOWN_COUNT : Nat := 4

/-- Delay between selecting a tip and arming it, in milliseconds. -/
def SHOW_TIP_DELAY_MS : Nat := 200

/-- No tip is shown if the browser was updated in the past this many
milliseconds. -/
def LAST_UPDATE_THRESHOLD_MS : Int := 24 * 60 * 60 * 1000

/-! ## Host values -/

/-- The fields of a `URL` object that the script reads: `hostname`, `pathname`
and the entries of `searchParams`. -/
structure URL where
  hostname : String
  pathname : String
  searchParams : List (String × String)
  deriving DecidableEq, Repr

/-- The method `url.searchParams.has(name)`. -/
def URL.searchParamsHas (url : URL) (name : String) : Bool :=
  url.searchParams.any (fun kv => kv.1 == name)

/-- A search engine as returned by `browser.search.get()`. -/
structure Engine where
  name : String
  isDefault : Bool
  favIconUrl : String
  deriving DecidableEq, Repr

/-- The call `engines.find(engine => engine.isDefault)`. -/
def findDefaultEngine (engines : List Engine) : Option Engine :=
  engines.find? (fun engine => engine.isDefault)

/-- The call `SUPPORTED_ENGINES.get(name)`. -/
def SUPPORTED_ENGINES_get (name : String) : Option (List String) :=
  (SUPPORTED_ENGINES.find? (fun kv => kv.1 == name)).map (fun kv => kv.2)

/-- The method `str.endsWith("/")`. -/
def endsWithSlash (str : String) : Bool :=
  str.data.getLast? == some '/'

/-- The method `str.slice(0, -1)`: the string without its last character. -/
def sliceDropLast (str : String) : String :=
  String.mk str.data.dropLast

/-- Lines 484-487 of the source: `hostname.concat(pathname)` with one trailing
slash stripped. -/
def stripped (url : URL) : String :=
  let urlStr := url.hostname ++ url.pathname
  if endsWithSlash urlStr then sliceDropLast urlStr else urlStr

/-- The function `isDefaultEngineHomepage(urlStr)`.  `newURL` is the platform
URL constructor (`none` when it throws) and `engines` is the answer of
`browser.search.get()`. -/
def isDefaultEngineHomepage (newURL : String → Option URL) (engines : List Engine)
    (urlStr : String) : Bool :=
  match findDefaultEngine engines with
  | none => false
  | some defaultEngine =>
    match SUPPORTED_ENGINES_get defaultEngine.name with
    | none => false
    | some homepages =>
      match newURL urlStr with
      | none => false
      | some url =>
        let urlStr := stripped url
        homepages.contains urlStr &&
          (urlStr != "duckduckgo.com" || !url.searchParamsHas "q")

/-! ## A concrete URL constructor for the examples -/

/-- Splits a character list at every occurrence of `sep`. -/
def splitOnChar (sep : Char) : List Char → List (List Char)
  | [] => [[]]
  | c :: cs =>
    if c == sep then [] :: splitOnChar sep cs
    else
      match splitOnChar sep cs with
      | [] => [[c]]
      | x :: xs => (c :: x) :: xs

/-- The entries of `searchParams` for a query string without escapes: the
non-empty `&`-separated pieces, each split at its first `=`. -/
def parseQuery (query : List Char) : List (String × String) :=
  ((splitOnChar '&' query).filter (fun piece => !piece.isEmpty)).map
    (fun piece =>
      (String.mk (piece.takeWhile (fun c => c != '=')),
       String.mk ((piece.dropWhile (fun c => c != '=')).drop 1)))

/-- Stand-in for the platform constructor `new URL(str)` on plain web addresses
`http(s)://host/path?query#fragment` whose host consists of lower-case letters
and dots, whose path consists of letters, digits, `/`, `_` and `-`, and whose
query consists of letters, digits, `=`, `&`, `_` and `-`.  On these the platform
constructor returns the host unchanged, the path unchanged (`/` when empty) and
the query pieces undecoded.  Every other string is answered `none` here; the
theorems below are stated for an arbitrary constructor and use this one only to
evaluate the script at concrete addresses. -/
def newURL_plain (str : String) : Option URL :=
  let cs := str.data
  let scheme := cs.takeWhile (fun c => c != ':')
  match cs.dropWhile (fun c => c != ':') with
  | ':' :: '/' :: '/' :: r =>
    let isDelim := fun (c : Char) => c == '/' || c == '?' || c == '#'
    let host := r.takeWhile (fun c => !isDelim c)
    let r1 := r.dropWhile (fun c => !isDelim c)
    let path := r1.takeWhile (fun c => c != '?' && c != '#')
    let r2 := r1.dropWhile (fun c => c != '?' && c != '#')
    let query :=
      match r2 with
      | '?' :: q => q.takeWhile (fun c => c != '#')
      | _ => []
    if (scheme == "http".data || scheme == "https".data)
        && !host.isEmpty
        && host.all (fun c => c.isLower || c == '.')
        && path.all (fun c => c.isAlphanum || c == '/' || c == '_' || c == '-')
        && query.all (fun c => c.isAlphanum || c == '=' || c == '&' || c == '_' || c == '-')
    then
      some { hostname := String.mk host
             pathname := if path.isEmpty then "/" else String.mk path
             searchParams := parseQuery query }
    else none
  | _ => none

/-! ## Module state and listeners -/

/-- The module-level variables of the script and the host state it touches.

* `storage` is the cached copy of `browser.storage.local`: `none` while the
  variable is `undefined`, `some n` for the object `{tipsShownCount: n}`;
* `persisted` is the `tipsShownCount` key of `browser.storage.local` itself
  (`none` when the key is absent);
* `timers` are the tips of the pending `setTimeout` callbacks, oldest first;
* `telemetry` lists the keys of the `keyedScalarAdd(..., tip, 1)` calls and
  `searches` the `focus` arguments of the `browser.urlbar.search` calls, most
  recent first. -/
structure World where
  studyBranch : BRANCHES
  currentTip : TIPS
  showedTipInCurrentEngagement : Bool
  showedTipInCurrentSession : Bool
  storage : Option Nat
  persisted : Option Nat
  timers : List TIPS
  telemetry : List TIPS
  searches : List Bool
  deriving DecidableEq, Repr

/-- What the host answers during one run of `maybeShowTipForTab`: the URL of
the tab, the two `browser.experiments.urlbar` signals, `Date.now()` and the
installed search engines. -/
structure Oracles where
  tabUrl : String
  isBrowserShowingNotification : Bool
  lastBrowserUpdateDate : Int
  now : Int
  engines : List Engine
  deriving DecidableEq, Repr

/-- The state right after the script is loaded in a process whose study branch
is `branch` and whose local storage holds `persisted`. -/
def boot (branch : BRANCHES) (persisted : Option Nat) : World :=
  { studyBranch := branch
    currentTip := .NONE
    showedTipInCurrentEngagement := false
    showedTipInCurrentSession := false
    storage := none
    persisted := persisted
    timers := []
    telemetry := []
    searches := [] }

/-- The value `storage[STORAGE_KEY_SHOWN_COUNT]` that the script works with:
the cached one once the cache is loaded, else the one a load would produce
(the persisted value, `0` when the key is absent). -/
def tipsShownCount (w : World) : Nat :=
  match w.storage with
  | some n => n
  | none => w.persisted.getD 0

/-- The state after lines 226-231 of `maybeShowTipForTab`: the storage cache is
loaded if it was not. -/
def loaded (w : World) : World := { w with storage := some (tipsShownCount w) }

/-- Lines 247-258 of `maybeShowTipForTab`: which tip to show for the tab, `none`
when the function returns with "No tip". -/
def chooseTip (newURL : String → Option URL) (o : Oracles) : Option TIPS :=
  let isNewtab := ["about:newtab", "about:home"].contains o.tabUrl
  let isSearchHomepage := !isNewtab && isDefaultEngineHomepage newURL o.engines o.tabUrl
  if isNewtab then some .ONBOARD
  else if isSearchHomepage then some .REDIRECT
  else none

/-- Lines 260-280 of `maybeShowTipForTab` ("At this point, we're showing a
tip"), for the loaded counter value `count`. -/
def showTip (w : World) (count : Nat) (tip : TIPS) : World :=
  { w with
      showedTipInCurrentSession := true
      storage := some (count + 1)
      persisted := some (count + 1)
      telemetry := tip :: w.telemetry
      timers := if w.studyBranch = .TREATMENT then w.timers ++ [tip] else w.timers }

/-- The function `maybeShowTipForTab(tabID)`.  Returns the new state and the tip
selected by the run (`TIPS.NONE` when it returns early). -/
def maybeShowTipForTab (newURL : String → Option URL) (w : World) (o : Oracles) :
    World × TIPS :=
  if w.showedTipInCurrentSession then (w, .NONE)
  else
    let count := tipsShownCount w
    let w := loaded w
    if count ≥ MAX_SHOWN_COUNT then (w, .NONE)
    else if o.isBrowserShowingNotification then (w, .NONE)
    else if o.now - o.lastBrowserUpdateDate ≤ LAST_UPDATE_THRESHOLD_MS then (w, .NONE)
    else
      match chooseTip newURL o with
      | none => (w, .NONE)
      | some tip => (showTip w count tip, tip)

/-- The callback passed to `setTimeout` at lines 276-279, run for the oldest
pending timer: it arms the tip and starts a search. -/
def timerFired (w : World) : World :=
  match w.timers with
  | [] => w
  | tip :: rest =>
    { w with
        timers := rest
        currentTip := tip
        searches := (tip == .ONBOARD) :: w.searches }

/-- The listener `onBehaviorRequested(query)`. -/
def onBehaviorRequested (w : World) : String :=
  if w.currentTip.truthy then "restricting" else "inactive"

/-- The result object built by `onResultsRequested`; `heuristic` and `text` are
`none` when the `switch` matches no case and leaves them unset. -/
structure TipResult where
  type : String
  source : String
  icon : String
  buttonText : String
  heuristic : Option Bool
  text : Option String
  deriving DecidableEq, Repr

/-- The listener `onResultsRequested(query)`; `engines` is the answer of
`browser.search.get()`.  The two assignments before the first `await` always
happen; reading `defaultEngine.favIconUrl` throws when no engine is flagged
default. -/
def onResultsRequested (w : World) (engines : List Engine) :
    World × Except String (List TipResult) :=
  let tip := w.currentTip
  let w := { w with currentTip := .NONE, showedTipInCurrentEngagement := true }
  match findDefaultEngine engines with
  | none => (w, .error "TypeError: defaultEngine is undefined")
  | some defaultEngine =>
    let result : TipResult :=
      { type := "tip"
        source := "local"
        icon := defaultEngine.favIconUrl
        buttonText := "Okay, Got It"
        heuristic := none
        text := none }
    let result :=
      match tip with
      | .ONBOARD =>
        { result with
            heuristic := some true
            text := some ("Type less, find more: Search " ++ defaultEngine.name ++ " " ++
              "right from your address bar.") }
      | .REDIRECT =>
        { result with
            heuristic := some false
            text := some ("Start your search here to see suggestions from " ++
              defaultEngine.name ++ " and your browsing history.") }
      | .NONE => result
    (w, .ok [result])

/-- The listener `onEngagement(state)`.  Assigning to a key of `storage` throws
while `storage` is still `undefined`; the state is then left as it was. -/
def onEngagement (w : World) (state : String) : Except String World :=
  if w.showedTipInCurrentEngagement && state == "engagement" then
    match w.storage with
    | none => .error "TypeError: storage is undefined"
    | some _ =>
      .ok { w with
              storage := some MAX_SHOWN_COUNT
              persisted := some MAX_SHOWN_COUNT
              showedTipInCurrentEngagement := false }
  else
    .ok { w with showedTipInCurrentEngagement := false }

/-- A restart of the host process: the module-level variables get their initial
values again and pending timers are gone; local storage and the study branch
are kept. -/
def restart (w : World) : World :=
  { w with
      currentTip := .NONE
      showedTipInCurrentEngagement := false
      showedTipInCurrentSession := false
      storage := none
      timers := [] }

/-! ## Event sequences -/

/-- The events the script reacts to. -/
inductive Event where
  | evaluate (o : Oracles)
  | timeout
  | behaviorRequested
  | resultsRequested (engines : List Engine)
  | engagement (state : String)
  | restart
  deriving DecidableEq, Repr

/-- What one event lets the outside observe: the tip selected by an evaluation
and the tip kind of a result returned to the urlbar. -/
structure Obs where
  selected : TIPS
  handed : TIPS
  deriving DecidableEq, Repr

/-- Handles one event to completion. -/
def step (newURL : String → Option URL) (w : World) : Event → World × Obs
  | .evaluate o =>
    let r := maybeShowTipForTab newURL w o
    (r.1, { selected := r.2, handed := .NONE })
  | .timeout => (timerFired w, { selected := .NONE, handed := .NONE })
  | .behaviorRequested => (w, { selected := .NONE, handed := .NONE })
  | .resultsRequested engines =>
    match onResultsRequested w engines with
    | (w1, .ok _) => (w1, { selected := .NONE, handed := w.currentTip })
    | (w1, .error _) => (w1, { selected := .NONE, handed := .NONE })
  | .engagement state =>
    match onEngagement w state with
    | .ok w1 => (w1, { selected := .NONE, handed := .NONE })
    | .error _ => (w, { selected := .NONE, handed := .NONE })
  | .restart => (restart w, { selected := .NONE, handed := .NONE })

/-- Handles a sequence of events one at a time; returns the final state and
the observations in order. -/
def run (newURL : String → Option URL) (w : World) : List Event → World × List Obs
  | [] => (w, [])
  | e :: es =>
    let r := step newURL w e
    let rs := run newURL r.1 es
    (rs.1, r.2 :: rs.2)

/-- Number of results carrying a tip kind that were returned to the urlbar. -/
def handedCount (obs : List Obs) : Nat :=
  (obs.filter (fun ob => ob.handed.truthy)).length

/-- Number of evaluations that selected a tip. -/
def selectedCount (obs : List Obs) : Nat :=
  (obs.filter (fun ob => ob.selected.truthy)).length

/-- Whether a sequence of events stays within one session. -/
def noRestart (evs : List Event) : Bool :=
  evs.all (fun e => e != Event.restart)

/-! ## Reference definition of homepage matching -/

/-- The string `str` with a single trailing "/" removed, as the specification
words the normalisation. -/
def removeTrailingSlash (str : String) : String :=
  match str.data.reverse with
  | '/' :: rest => String.mk rest.reverse
  | _ => str

/-- Reference definition of homepage matching, following the specification: a
default engine exists (the first engine flagged default), its name is a key of
`SUPPORTED_ENGINES`, the string parses as a URL, hostname+pathname with a single
trailing "/" removed is exactly one entry of that engine's homepage list, and
it is not the case that this string is "duckduckgo.com" with a "q" search
parameter present. -/
def isDefaultEngineHomepage_ref (newURL : String → Option URL) (engines : List Engine)
    (urlStr : String) : Prop :=
  ∃ (engine : Engine) (homepages : List String) (url : URL),
    (engine.isDefault = true ∧ ∃ before after, engines = before ++ engine :: after ∧
      ∀ other ∈ before, other.isDefault = false) ∧
    (engine.name, homepages) ∈ SUPPORTED_ENGINES ∧
    newURL urlStr = some url ∧
    removeTrailingSlash (url.hostname ++ url.pathname) ∈ homepages ∧
    ¬ (removeTrailingSlash (url.hostname ++ url.pathname) = "duckduckgo.com" ∧
        ∃ value, ("q", value) ∈ url.searchParams)

/-! ## Invariants and measures of event sequences -/

/-- The cached storage, once loaded, agrees with local storage. -/
def Coherent (w : World) : Prop :=
  ∀ n, w.storage = some n → w.persisted.getD 0 = n

/-- How many more tips the state can still hand to the urlbar: the distance of
the persisted counter from the maximum, the pending timers, and the armed tip. -/
def budget (w : World) : Nat :=
  (MAX_SHOWN_COUNT - w.persisted.getD 0) + w.timers.length + w.currentTip.truthy.toNat

/-- The state after an acknowledgment: local storage holds the maximum, and so
does the cache whenever it is loaded. -/
def Acknowledged (w : World) : Prop :=
  w.persisted = some MAX_SHOWN_COUNT ∧ (w.storage = none ∨ w.storage = some MAX_SHOWN_COUNT)

/-- The states of a Control process: nothing armed, nothing scheduled, no
search started. -/
def ControlIdle (w : World) : Prop :=
  w.studyBranch = .CONTROL ∧ w.currentTip = .NONE ∧ w.timers = [] ∧ w.searches = []

/-- Whether a sequence of events handled from state `w` follows the urlbar's
provider protocol: the urlbar asks a provider for results only while the
provider's answer to the behavior request is not "inactive". -/
def hostProtocol (newURL : String → Option URL) (w : World) : List Event → Bool
  | [] => true
  | e :: es =>
    (match e with
      | .resultsRequested _ => onBehaviorRequested w != "inactive"
      | _ => true) &&
    hostProtocol newURL (step newURL w e).1 es

/-- The storage cache is loaded whenever a tip was displayed in the current
engagement, is armed, or is scheduled to be armed. -/
def CacheReady (w : World) : Prop :=
  (w.showedTipInCurrentEngagement = true ∨ w.currentTip.truthy = true ∨ w.timers ≠ []) →
    w.storage ≠ none

/-! ## Single evaluations -/

section Gates

variable (newURL : String → Option URL)

/-- The tip chosen for a tab is never `TIPS.NONE`. -/
theorem chooseTip_truthy (o : Oracles) (tip : TIPS) (h : chooseTip newURL o = some tip) :
    tip.truthy = true := by
  unfold chooseTip at h
  dsimp only at h
  split_ifs at h <;> cases h <;> rfl

/-- The three outcomes of an evaluation: nothing happens, only the cache is
loaded, or a tip is shown from a state below both caps. -/
theorem maybeShowTipForTab_cases (w : World) (o : Oracles) :
    maybeShowTipForTab newURL w o = (w, .NONE) ∨
    maybeShowTipForTab newURL w o = (loaded w, .NONE) ∨
    ∃ tip, tip.truthy = true ∧ w.showedTipInCurrentSession = false ∧
      tipsShownCount w < MAX_SHOWN_COUNT ∧ o.isBrowserShowingNotification = false ∧
      LAST_UPDATE_THRESHOLD_MS < o.now - o.lastBrowserUpdateDate ∧
      chooseTip newURL o = some tip ∧
      maybeShowTipForTab newURL w o = (showTip (loaded w) (tipsShownCount w) tip, tip) := by
  unfold maybeShowTipForTab loaded
  by_cases h1 : w.showedTipInCurrentSession = true
  · simp [h1]
  · by_cases h2 : tipsShownCount w ≥ MAX_SHOWN_COUNT
    · simp [h1, h2]
    · by_cases h3 : o.isBrowserShowingNotification = true
      · simp [h1, h2, h3]
      · by_cases h4 : o.now - o.lastBrowserUpdateDate ≤ LAST_UPDATE_THRESHOLD_MS
        · simp [h1, h2, h3, h4]
        · cases h5 : chooseTip newURL o with
          | none => simp [h1, h2, h3, h4, h5]
          | some tip =>
            right; right
            refine ⟨tip, chooseTip_truthy newURL o tip h5, by simpa using h1, by omega,
              by simpa using h3, by omega, rfl, ?_⟩
            simp [h1, h2, h3, h4, h5]

/-- Loading the cache does not change the counter the script works with. -/
theorem tipsShownCount_loaded (w : World) : tipsShownCount (loaded w) = tipsShownCount w := by
  simp [loaded, tipsShownCount]

/-- An evaluation that ends in one of the two early outcomes selects no tip and
leaves the session flag, the counter, the persisted value, the armed tip, the
pending timers and the telemetry as they were. -/
theorem quiet_of_early (w : World) (o : Oracles)
    (h : maybeShowTipForTab newURL w o = (w, .NONE) ∨
      maybeShowTipForTab newURL w o = (loaded w, .NONE)) :
    (maybeShowTipForTab newURL w o).2 = .NONE ∧
    (maybeShowTipForTab newURL w o).1.showedTipInCurrentSession = w.showedTipInCurrentSession ∧
    tipsShownCount (maybeShowTipForTab newURL w o).1 = tipsShownCount w ∧
    (maybeShowTipForTab newURL w o).1.persisted = w.persisted ∧
    (maybeShowTipForTab newURL w o).1.currentTip = w.currentTip ∧
    (maybeShowTipForTab newURL w o).1.timers = w.timers ∧
    (maybeShowTipForTab newURL w o).1.telemetry = w.telemetry := by
  rcases h with h | h <;> rw [h]
  · simp
  · exact ⟨rfl, rfl, tipsShownCount_loaded w, rfl, rfl, rfl, rfl⟩

/-- C6. Update-recency gate, boundary included: whenever
`now - lastBrowserUpdateDate` is at most `LAST_UPDATE_THRESHOLD_MS` (24 hours in
milliseconds), `maybeShowTipForTab` selects no tip and leaves
`showedTipInCurrentSession`, `tipsShownCount` (in memory and persisted),
`currentTip`, the pending timers and the telemetry unchanged, for every state,
tab URL, branch and other oracle answers. -/
theorem update_recency_gate (w : World) (o : Oracles)
    (h : o.now - o.lastBrowserUpdateDate ≤ LAST_UPDATE_THRESHOLD_MS) :
    LAST_UPDATE_THRESHOLD_MS = 86400000 ∧
    (maybeShowTipForTab newURL w o).2 = .NONE ∧
    (maybeShowTipForTab newURL w o).1.showedTipInCurrentSession = w.showedTipInCurrentSession ∧
    tipsShownCount (maybeShowTipForTab newURL w o).1 = tipsShownCount w ∧
    (maybeShowTipForTab newURL w o).1.persisted = w.persisted ∧
    (maybeShowTipForTab newURL w o).1.currentTip = w.currentTip ∧
    (maybeShowTipForTab newURL w o).1.timers = w.timers ∧
    (maybeShowTipForTab newURL w o).1.telemetry = w.telemetry := by
  refine ⟨by decide, quiet_of_early newURL w o ?_⟩
  rcases maybeShowTipForTab_cases newURL w o with h1 | h1 | ⟨tip, -, -, -, -, h5, -⟩
  · exact Or.inl h1
  · exact Or.inr h1
  · omega

/-- C6 at the boundary: a fresh Treatment process on `about:newtab` whose last
update is exactly 24 hours old selects no tip. -/
theorem update_recency_gate_witness :
    (86400000 : Int) - 0 ≤ LAST_UPDATE_THRESHOLD_MS ∧
    (maybeShowTipForTab newURL_plain (boot .TREATMENT none)
      ⟨"about:newtab", false, 0, 86400000, []⟩).2 = .NONE :=
  ⟨by decide,
    (update_recency_gate newURL_plain (boot .TREATMENT none)
      ⟨"about:newtab", false, 0, 86400000, []⟩ (by decide)).2.1⟩

/-- C7. Notification-conflict gate: whenever `isBrowserShowingNotification`
answers true, `maybeShowTipForTab` selects no tip and leaves
`showedTipInCurrentSession`, `tipsShownCount` (in memory and persisted),
`currentTip`, the pending timers and the telemetry unchanged, whatever the
state, the tab URL, the branch and the other oracle answers are. -/
theorem notification_gate (w : World) (o : Oracles)
    (h : o.isBrowserShowingNotification = true) :
    (maybeShowTipForTab newURL w o).2 = .NONE ∧
    (maybeShowTipForTab newURL w o).1.showedTipInCurrentSession = w.showedTipInCurrentSession ∧
    tipsShownCount (maybeShowTipForTab newURL w o).1 = tipsShownCount w ∧
    (maybeShowTipForTab newURL w o).1.persisted = w.persisted ∧
    (maybeShowTipForTab newURL w o).1.currentTip = w.currentTip ∧
    (maybeShowTipForTab newURL w o).1.timers = w.timers ∧
    (maybeShowTipForTab newURL w o).1.telemetry = w.telemetry := by
  refine quiet_of_early newURL w o ?_
  rcases maybeShowTipForTab_cases newURL w o with h1 | h1 | ⟨tip, -, -, -, h4, -⟩
  · exact Or.inl h1
  · exact Or.inr h1
  · rw [h] at h4; cases h4

/-- C7 with every other condition satisfied: Treatment branch, fresh session,
counter 0, update two days old, tab on `about:newtab`; the same evaluation
without the notification selects the onboarding tip. -/
theorem notification_gate_witness :
    (maybeShowTipForTab newURL_plain (boot .TREATMENT none)
      ⟨"about:newtab", true, 0, 172800000, []⟩).2 = .NONE ∧
    (maybeShowTipForTab newURL_plain (boot .TREATMENT none)
      ⟨"about:newtab", false, 0, 172800000, []⟩).2 = .ONBOARD :=
  ⟨(notification_gate newURL_plain (boot .TREATMENT none)
      ⟨"about:newtab", true, 0, 172800000, []⟩ rfl).1, by decide⟩

end Gates

/-! ## Engagement state machine -/

/-- Outside the host protocol: a results request made while no tip is armed, in
a process that never evaluated a tab, sets `showedTipInCurrentEngagement` while
`storage` is still `undefined`; `onEngagement("engagement")` then throws at the
assignment to `storage[STORAGE_KEY_SHOWN_COUNT]` and the flag stays true. -/
theorem onEngagement_throws_before_load :
    onBehaviorRequested (boot .TREATMENT none) = "inactive" ∧
    (onResultsRequested (boot .TREATMENT none) [⟨"Google", true, "g.ico"⟩]).1.storage = none ∧
    (onResultsRequested (boot .TREATMENT none)
      [⟨"Google", true, "g.ico"⟩]).1.showedTipInCurrentEngagement = true ∧
    onEngagement (onResultsRequested (boot .TREATMENT none) [⟨"Google", true, "g.ico"⟩]).1
      "engagement" = .error "TypeError: storage is undefined" ∧
    (step newURL_plain (onResultsRequested (boot .TREATMENT none) [⟨"Google", true, "g.ico"⟩]).1
      (.engagement "engagement")).1.showedTipInCurrentEngagement = true :=
  ⟨by decide, by decide, by decide, rfl, by decide⟩

/-- From every state in which the cached storage is loaded whenever the
engagement flag is set, `onEngagement(state)` returns: with the flag reset and
the counter forced to the maximum when the acknowledgment branch is taken, and
with only the flag reset otherwise. -/
theorem onEngagement_completes (w : World) (state : String)
    (h : w.showedTipInCurrentEngagement = true → w.storage ≠ none) :
    ∃ w1, onEngagement w state = .ok w1 ∧ w1.showedTipInCurrentEngagement = false ∧
      ((w.showedTipInCurrentEngagement = true ∧ state = "engagement") →
        w1.storage = some MAX_SHOWN_COUNT ∧ w1.persisted = some MAX_SHOWN_COUNT) ∧
      (¬ (w.showedTipInCurrentEngagement = true ∧ state = "engagement") →
        w1 = { w with showedTipInCurrentEngagement := false }) := by
  unfold onEngagement
  by_cases hc : (w.showedTipInCurrentEngagement && state == "engagement") = true
  · rw [if_pos hc]
    simp only [Bool.and_eq_true, beq_iff_eq] at hc
    cases hs : w.storage with
    | some n => exact ⟨_, rfl, rfl, fun _ => ⟨rfl, rfl⟩, fun hn => absurd hc hn⟩
    | none => exact absurd hs (h hc.1)
  · rw [if_neg hc]
    simp only [Bool.and_eq_true, beq_iff_eq] at hc
    exact ⟨_, rfl, rfl, fun hy => absurd hy hc, fun _ => rfl⟩

/-- C10. Single use of an armed tip: `onBehaviorRequested` answers "restricting"
exactly when `currentTip` is not `NONE` (and "inactive" otherwise);
`onResultsRequested` resets `currentTip` to `NONE` from every state, so right
after it `onBehaviorRequested` answers "inactive" and a second results request
returns one result without a tip kind (neither `heuristic` nor `text` set); with
a default engine installed the call returns exactly one result, with
`heuristic = true` when the consumed tip was `ONBOARD` and `heuristic = false`
when it was `REDIRECT`. -/
theorem armed_tip_single_use (w : World) (engines engines2 : List Engine) (e e2 : Engine)
    (h : findDefaultEngine engines = some e) (h2 : findDefaultEngine engines2 = some e2) :
    (onBehaviorRequested w = "restricting" ↔ w.currentTip ≠ .NONE) ∧
    (onBehaviorRequested w = "inactive" ↔ w.currentTip = .NONE) ∧
    (onResultsRequested w engines).1.currentTip = .NONE ∧
    onBehaviorRequested (onResultsRequested w engines).1 = "inactive" ∧
    (∃ r, (onResultsRequested w engines).2 = .ok [r] ∧
      (w.currentTip = .ONBOARD → r.heuristic = some true) ∧
      (w.currentTip = .REDIRECT → r.heuristic = some false) ∧
      (w.currentTip = .NONE → r.heuristic = none ∧ r.text = none)) ∧
    (∃ r, (onResultsRequested (onResultsRequested w engines).1 engines2).2 = .ok [r] ∧
      r.heuristic = none ∧ r.text = none) := by
  refine ⟨?_, ?_, ?_, ?_, ?_, ?_⟩
  · unfold onBehaviorRequested; cases w.currentTip <;> simp [TIPS.truthy]
  · unfold onBehaviorRequested; cases w.currentTip <;> simp [TIPS.truthy]
  · unfold onResultsRequested; simp only [h]
  · unfold onResultsRequested onBehaviorRequested; simp only [h]; rfl
  · unfold onResultsRequested; simp only [h]
    cases w.currentTip <;> exact ⟨_, rfl, by simp⟩
  · unfold onResultsRequested; simp only [h, h2]
    exact ⟨_, rfl, rfl, rfl⟩

/-- C10 on an armed onboarding tip with Google as the default engine. -/
theorem armed_tip_single_use_witness :
    onBehaviorRequested { boot .TREATMENT (some 1) with currentTip := .ONBOARD } = "restricting" ∧
    (onResultsRequested { boot .TREATMENT (some 1) with currentTip := .ONBOARD }
      [⟨"Google", true, "g.ico"⟩]).1.currentTip = .NONE :=
  ⟨(armed_tip_single_use { boot .TREATMENT (some 1) with currentTip := .ONBOARD }
      [⟨"Google", true, "g.ico"⟩] [⟨"Google", true, "g.ico"⟩] ⟨"Google", true, "g.ico"⟩
      ⟨"Google", true, "g.ico"⟩ rfl rfl).1.2 (by decide),
   (armed_tip_single_use { boot .TREATMENT (some 1) with currentTip := .ONBOARD }
      [⟨"Google", true, "g.ico"⟩] [⟨"Google", true, "g.ico"⟩] ⟨"Google", true, "g.ico"⟩
      ⟨"Google", true, "g.ico"⟩ rfl rfl).2.2.1⟩

/-! ## Homepage matching -/

/-- The source's `endsWith`/`slice` normalisation removes a single trailing
slash. -/
theorem stripped_eq (url : URL) :
    stripped url = removeTrailingSlash (url.hostname ++ url.pathname) := by
  unfold stripped removeTrailingSlash endsWithSlash sliceDropLast
  generalize url.hostname ++ url.pathname = str
  rcases List.eq_nil_or_concat str.data with h | ⟨init, c, h⟩
  · simp [h]
  · rw [List.concat_eq_append] at h
    by_cases hc : c = '/'
    · subst hc
      simp [h]
    · simp [h, hc]

/-- The lookup in `SUPPORTED_ENGINES` finds exactly the listed pairs. -/
theorem SUPPORTED_ENGINES_get_iff (name : String) (homepages : List String) :
    SUPPORTED_ENGINES_get name = some homepages ↔ (name, homepages) ∈ SUPPORTED_ENGINES := by
  unfold SUPPORTED_ENGINES_get SUPPORTED_ENGINES
  simp only [List.find?_cons, List.find?_nil, List.mem_cons, Prod.mk.injEq]
  by_cases h1 : name = "Bing"
  · subst h1; simp; constructor <;> intro h <;> simp [h]
  · by_cases h2 : name = "DuckDuckGo"
    · subst h2; simp; constructor <;> intro h <;> simp [h]
    · by_cases h3 : name = "Google"
      · subst h3; simp; constructor <;> intro h <;> simp [h]
      · have hb1 : ("Bing" == name) = false := by simpa using Ne.symm h1
        have hb2 : ("DuckDuckGo" == name) = false := by simpa using Ne.symm h2
        have hb3 : ("Google" == name) = false := by simpa using Ne.symm h3
        simp [hb1, hb2, hb3, h1, h2, h3]

/-- The method `searchParams.has("q")` answers whether some entry is named "q". -/
theorem searchParamsHas_q_iff (url : URL) :
    url.searchParamsHas "q" = true ↔ ∃ value, ("q", value) ∈ url.searchParams := by
  unfold URL.searchParamsHas
  simp only [List.any_eq_true, beq_iff_eq]
  constructor
  · rintro ⟨⟨k, v⟩, hmem, hk⟩
    exact ⟨v, by simpa [← show k = "q" from hk] using hmem⟩
  · rintro ⟨v, hmem⟩
    exact ⟨("q", v), hmem, rfl⟩

/-- The source's search for the default engine finds the first flagged one. -/
theorem findDefaultEngine_iff (engines : List Engine) (engine : Engine) :
    findDefaultEngine engines = some engine ↔
      (engine.isDefault = true ∧ ∃ before after, engines = before ++ engine :: after ∧
        ∀ other ∈ before, other.isDefault = false) := by
  unfold findDefaultEngine
  rw [List.find?_eq_some]
  simp

/-- C4. Refinement: for every URL constructor, engine list and string,
`isDefaultEngineHomepage` is true exactly when the reference definition holds
(a default engine exists, its name is a key of `SUPPORTED_ENGINES`, the string
parses, hostname+pathname with a single trailing "/" removed is exactly one of
the engine's homepages, and it is not "duckduckgo.com" with a "q" parameter),
and false otherwise, including for an unparseable string.  With Google as the
default engine, `https://www.google.com/webhp/` gives true and
`https://www.google.com/search?q=x` gives false. -/
theorem isDefaultEngineHomepage_refines :
    (∀ (newURL : String → Option URL) (engines : List Engine) (urlStr : String),
      (isDefaultEngineHomepage newURL engines urlStr = true ↔
        isDefaultEngineHomepage_ref newURL engines urlStr) ∧
      (newURL urlStr = none → isDefaultEngineHomepage newURL engines urlStr = false)) ∧
    isDefaultEngineHomepage newURL_plain [⟨"Google", true, "g.ico"⟩]
      "https://www.google.com/webhp/" = true ∧
    isDefaultEngineHomepage newURL_plain [⟨"Google", true, "g.ico"⟩]
      "https://www.google.com/search?q=x" = false := by
  refine ⟨fun newURL engines urlStr => ⟨⟨fun h => ?_, fun h => ?_⟩, fun h => ?_⟩, ?_, ?_⟩
  · unfold isDefaultEngineHomepage at h
    cases he : findDefaultEngine engines with
    | none => simp [he] at h
    | some engine =>
      cases hg : SUPPORTED_ENGINES_get engine.name with
      | none => simp [he, hg] at h
      | some homepages =>
        cases hu : newURL urlStr with
        | none => simp [he, hg, hu] at h
        | some url =>
          simp only [he, hg, hu, Bool.and_eq_true] at h
          refine ⟨engine, homepages, url, (findDefaultEngine_iff engines engine).1 he,
            (SUPPORTED_ENGINES_get_iff _ _).1 hg, hu, ?_, ?_⟩
          · rw [← stripped_eq]; simpa using h.1
          · rw [← stripped_eq, ← searchParamsHas_q_iff]
            rintro ⟨h1, h2⟩
            have := h.2
            simp [h1, h2] at this
  · obtain ⟨engine, homepages, url, he, hg, hu, hm, hq⟩ := h
    rw [← stripped_eq] at hm hq
    rw [← searchParamsHas_q_iff] at hq
    unfold isDefaultEngineHomepage
    simp only [(findDefaultEngine_iff engines engine).2 he, (SUPPORTED_ENGINES_get_iff _ _).2 hg,
      hu, Bool.and_eq_true]
    refine ⟨by simpa using hm, ?_⟩
    by_cases h1 : stripped url = "duckduckgo.com"
    · have h2 : url.searchParamsHas "q" = false := by
        cases hh : url.searchParamsHas "q" with
        | false => rfl
        | true => exact absurd ⟨h1, hh⟩ hq
      simp [h2]
    · simp [h1]
  · unfold isDefaultEngineHomepage
    cases he : findDefaultEngine engines with
    | none => rfl
    | some engine =>
      cases hg : SUPPORTED_ENGINES_get engine.name with
      | none => simp only [hg]
      | some homepages => simp only [hg, h]
  · decide
  · decide

/-- C5, as stated, fails for the second listed homepage: with DuckDuckGo as the
default engine, `https://start.duckduckgo.com/?q=test` has the "q" parameter and
is still answered true, because the source compares the normalised string with
"duckduckgo.com" only. -/
theorem duckduckgo_query_counterexample :
    newURL_plain "https://start.duckduckgo.com/?q=test" =
      some ⟨"start.duckduckgo.com", "/", [("q", "test")]⟩ ∧
    URL.searchParamsHas ⟨"start.duckduckgo.com", "/", [("q", "test")]⟩ "q" = true ∧
    isDefaultEngineHomepage newURL_plain [⟨"DuckDuckGo", true, "d.ico"⟩]
      "https://start.duckduckgo.com/?q=test" = true := by
  decide

/-- C5, amended: with DuckDuckGo as the default engine, for every parseable URL
whose query string contains the "q" parameter, `isDefaultEngineHomepage` returns
false unless hostname+pathname without its trailing slash is
"start.duckduckgo.com", for which the query is not examined and the answer is
true; in particular it returns false for "duckduckgo.com". -/
theorem duckduckgo_query_exclusion (newURL : String → Option URL) (engines : List Engine)
    (urlStr : String) (engine : Engine) (url : URL)
    (hd : findDefaultEngine engines = some engine) (hn : engine.name = "DuckDuckGo")
    (hu : newURL urlStr = some url) (hq : url.searchParamsHas "q" = true) :
    (isDefaultEngineHomepage newURL engines urlStr = true ↔
      stripped url = "start.duckduckgo.com") ∧
    (stripped url = "duckduckgo.com" → isDefaultEngineHomepage newURL engines urlStr = false) := by
  have hg : SUPPORTED_ENGINES_get "DuckDuckGo" =
      some ["duckduckgo.com", "start.duckduckgo.com"] := by decide
  have key : isDefaultEngineHomepage newURL engines urlStr =
      (["duckduckgo.com", "start.duckduckgo.com"].contains (stripped url) &&
        (stripped url != "duckduckgo.com" || !url.searchParamsHas "q")) := by
    unfold isDefaultEngineHomepage
    simp only [hd, hn, hg, hu]
  rw [key, hq]
  constructor
  · by_cases h1 : stripped url = "duckduckgo.com"
    · simp [h1]
    · by_cases h2 : stripped url = "start.duckduckgo.com"
      · simp [h2]
      · simp [h1, h2]
  · intro h1
    simp [h1]

/-- C5, amended, at the addresses of the specification: with the "q" parameter
`https://duckduckgo.com/?q=test` is not a homepage, and without it
`https://duckduckgo.com/` is. -/
theorem duckduckgo_query_exclusion_witness :
    isDefaultEngineHomepage newURL_plain [⟨"DuckDuckGo", true, "d.ico"⟩]
      "https://duckduckgo.com/?q=test" = false ∧
    isDefaultEngineHomepage newURL_plain [⟨"DuckDuckGo", true, "d.ico"⟩]
      "https://duckduckgo.com/" = true :=
  ⟨(duckduckgo_query_exclusion newURL_plain [⟨"DuckDuckGo", true, "d.ico"⟩]
      "https://duckduckgo.com/?q=test" ⟨"DuckDuckGo", true, "d.ico"⟩
      ⟨"duckduckgo.com", "/", [("q", "test")]⟩ (by decide) rfl (by decide) (by decide)).2
      (by decide),
   by decide⟩

/-! ## Event sequences: the lifetime cap -/

section Sequences

variable (newURL : String → Option URL)

/-- Under coherence the counter the script works with is the persisted one. -/
theorem tipsShownCount_of_coherent (w : World) (h : Coherent w) :
    tipsShownCount w = w.persisted.getD 0 := by
  unfold tipsShownCount
  cases hs : w.storage with
  | none => rfl
  | some n => exact (h n hs).symm

/-- The result of `onEngagement`, when it returns. -/
theorem onEngagement_ok (w w1 : World) (state : String) (h : onEngagement w state = .ok w1) :
    w1 = { w with showedTipInCurrentEngagement := false } ∨
    (w.showedTipInCurrentEngagement = true ∧ state = "engagement" ∧ w.storage ≠ none ∧
      w1 = { w with storage := some MAX_SHOWN_COUNT, persisted := some MAX_SHOWN_COUNT,
                    showedTipInCurrentEngagement := false }) := by
  unfold onEngagement at h
  by_cases hc : (w.showedTipInCurrentEngagement && state == "engagement") = true
  · rw [if_pos hc] at h
    simp only [Bool.and_eq_true, beq_iff_eq] at hc
    cases hs : w.storage with
    | none => simp [hs] at h
    | some n =>
      simp only [hs] at h
      right
      refine ⟨hc.1, hc.2, by simp, ?_⟩
      injection h with h
      rw [← h]
  · rw [if_neg hc] at h
    left
    injection h with h
    exact h.symm

/-- A results request always disarms the tip and sets the engagement flag; the
tip kind it hands over is the one that was armed, or none when the call throws. -/
theorem step_resultsRequested (w : World) (engines : List Engine) :
    (step newURL w (.resultsRequested engines)).1 =
      { w with currentTip := .NONE, showedTipInCurrentEngagement := true } ∧
    (step newURL w (.resultsRequested engines)).2.selected = .NONE ∧
    ((step newURL w (.resultsRequested engines)).2.handed = w.currentTip ∨
      (step newURL w (.resultsRequested engines)).2.handed = .NONE) := by
  simp only [step, onResultsRequested]
  cases findDefaultEngine engines with
  | none => exact ⟨rfl, rfl, Or.inr rfl⟩
  | some engine => exact ⟨rfl, rfl, Or.inl rfl⟩

/-- Every event keeps the cache coherent with local storage. -/
theorem step_coherent (w : World) (e : Event) (h : Coherent w) :
    Coherent (step newURL w e).1 := by
  cases e with
  | evaluate o =>
    show Coherent (maybeShowTipForTab newURL w o).1
    rcases maybeShowTipForTab_cases newURL w o with h1 | h1 | ⟨tip, -, -, -, -, -, -, h1⟩ <;>
      rw [h1]
    · exact h
    · intro n hn
      simp only [loaded, Option.some.injEq] at hn
      rw [← hn, tipsShownCount_of_coherent w h]
      rfl
    · intro n hn
      simp only [showTip, Option.some.injEq] at hn
      simp [showTip, hn]
  | timeout =>
    show Coherent (timerFired w)
    unfold timerFired
    cases w.timers <;> exact h
  | behaviorRequested => exact h
  | resultsRequested engines =>
    rw [(step_resultsRequested newURL w engines).1]
    exact h
  | engagement state =>
    simp only [step]
    cases hr : onEngagement w state with
    | error msg => exact h
    | ok w1 =>
      rcases onEngagement_ok w w1 state hr with h1 | ⟨-, -, -, h1⟩ <;> rw [h1]
      · exact h
      · intro n hn
        simp only [Option.some.injEq] at hn
        simp [hn]
  | restart =>
    intro n hn
    simp [step, restart] at hn

/-- The empty tip is falsy. -/
theorem truthy_NONE : TIPS.NONE.truthy = false := rfl

/-- Every event pays for a handed tip out of the budget. -/
theorem step_budget (w : World) (e : Event) (h : Coherent w) :
    (step newURL w e).2.handed.truthy.toNat + budget (step newURL w e).1 ≤ budget w := by
  cases e with
  | evaluate o =>
    show TIPS.NONE.truthy.toNat + budget (maybeShowTipForTab newURL w o).1 ≤ budget w
    rcases maybeShowTipForTab_cases newURL w o with h1 | h1 | ⟨tip, -, -, hlt, -, -, -, h1⟩ <;>
      rw [h1]
    · simp [truthy_NONE]
    · simp [truthy_NONE, loaded, budget]
    · rw [tipsShownCount_of_coherent w h] at hlt ⊢
      simp only [truthy_NONE, showTip, loaded, budget, Option.getD_some, Bool.toNat_false]
      by_cases hb : w.studyBranch = .TREATMENT
      · simp only [hb, if_true, List.length_append, List.length_singleton]
        omega
      · simp only [hb, if_false]
        omega
  | timeout =>
    show TIPS.NONE.truthy.toNat + budget (timerFired w) ≤ budget w
    unfold timerFired
    cases ht : w.timers with
    | nil => simp [truthy_NONE]
    | cons tip rest =>
      simp only [budget, ht, List.length_cons, truthy_NONE, Bool.toNat_false]
      have h1 := Bool.toNat_le tip.truthy
      have h2 := Bool.toNat_le w.currentTip.truthy
      omega
  | behaviorRequested => simp [step, truthy_NONE]
  | resultsRequested engines =>
    obtain ⟨hw, -, hh⟩ := step_resultsRequested newURL w engines
    rw [hw]
    rcases hh with hh | hh <;> rw [hh] <;>
      simp only [budget, truthy_NONE, Bool.toNat_false] <;> omega
  | engagement state =>
    simp only [step]
    cases hr : onEngagement w state with
    | error msg => simp [truthy_NONE]
    | ok w1 =>
      rcases onEngagement_ok w w1 state hr with h1 | ⟨-, -, -, h1⟩ <;> rw [h1]
      · simp [truthy_NONE, budget]
      · simp only [budget, truthy_NONE, Option.getD_some, Bool.toNat_false]
        omega
  | restart =>
    simp only [step, restart, budget, truthy_NONE, List.length_nil, Bool.toNat_false]
    omega

/-- Over a whole sequence, the handed tips and the remaining budget never
exceed the initial budget. -/
theorem run_budget (evs : List Event) (w : World) (h : Coherent w) :
    handedCount (run newURL w evs).2 + budget (run newURL w evs).1 ≤ budget w := by
  induction evs generalizing w with
  | nil => simp [run, handedCount]
  | cons e es ih =>
    have h1 := step_budget newURL w e h
    have h2 := ih (step newURL w e).1 (step_coherent newURL w e h)
    simp only [run, handedCount, List.filter_cons] at h2 ⊢
    cases ht : (step newURL w e).2.handed.truthy
    · simp only [Bool.false_eq_true, if_false]
      omega
    · simp only [ht, Bool.toNat_true] at h1
      simp only [if_true, List.length_cons]
      omega

/-- C1. Lifetime cap: for every finite sequence of events handled one at a time
(evaluations with arbitrary tab URLs and oracle answers, timer callbacks,
behavior and results requests, engagement signals and restarts), starting from
a freshly started process with any persisted counter (absent, at most 4, or
larger), the number of results carrying an armed tip (`ONBOARD` or `REDIRECT`)
that `onResultsRequested` hands to the urlbar is at most `MAX_SHOWN_COUNT = 4`;
more precisely, at most the distance of the persisted counter from 4. -/
theorem lifetime_cap (branch : BRANCHES) (persisted : Option Nat) (evs : List Event) :
    handedCount (run newURL (boot branch persisted) evs).2 ≤ MAX_SHOWN_COUNT ∧
    handedCount (run newURL (boot branch persisted) evs).2 ≤
      MAX_SHOWN_COUNT - persisted.getD 0 ∧
    MAX_SHOWN_COUNT = 4 := by
  have hc : Coherent (boot branch persisted) := by
    intro n hn
    simp [boot] at hn
  have h := run_budget newURL evs (boot branch persisted) hc
  have hb : budget (boot branch persisted) = MAX_SHOWN_COUNT - persisted.getD 0 := by
    simp [budget, boot, TIPS.truthy]
  rw [hb] at h
  refine ⟨?_, ?_, rfl⟩ <;> omega

/-- The cap of C1 is reached: four sessions that each select the onboarding tip,
arm it and hand it over give four handed tips, and a fifth session gives none. -/
theorem lifetime_cap_reached :
    handedCount (run newURL_plain (boot .TREATMENT none)
      [ .evaluate ⟨"about:newtab", false, 0, 172800000, []⟩, .timeout,
        .resultsRequested [⟨"Google", true, "g.ico"⟩], .engagement "abandonment", .restart,
        .evaluate ⟨"about:home", false, 0, 172800000, []⟩, .timeout,
        .resultsRequested [⟨"Google", true, "g.ico"⟩], .engagement "abandonment", .restart,
        .evaluate ⟨"about:newtab", false, 0, 172800000, []⟩, .timeout,
        .resultsRequested [⟨"Google", true, "g.ico"⟩], .engagement "abandonment", .restart,
        .evaluate ⟨"about:newtab", false, 0, 172800000, []⟩, .timeout,
        .resultsRequested [⟨"Google", true, "g.ico"⟩], .engagement "abandonment", .restart,
        .evaluate ⟨"about:newtab", false, 0, 172800000, []⟩, .timeout,
        .resultsRequested [⟨"Google", true, "g.ico"⟩] ]).2 = 4 := by
  decide

/-! ## Event sequences: one tip per session -/

/-- Once the session flag is set, an evaluation changes nothing and selects no
tip. -/
theorem maybeShowTipForTab_of_session (w : World) (o : Oracles)
    (h : w.showedTipInCurrentSession = true) :
    maybeShowTipForTab newURL w o = (w, .NONE) := by
  unfold maybeShowTipForTab
  simp [h]

/-- An evaluation that selects a tip sets the session flag. -/
theorem session_of_selected (w : World) (o : Oracles)
    (h : (maybeShowTipForTab newURL w o).2 ≠ .NONE) :
    (maybeShowTipForTab newURL w o).1.showedTipInCurrentSession = true := by
  rcases maybeShowTipForTab_cases newURL w o with h1 | h1 | ⟨tip, -, -, -, -, -, -, h1⟩
  · rw [h1] at h; exact absurd rfl h
  · rw [h1] at h; exact absurd rfl h
  · rw [h1]; rfl

/-- No event other than a restart or an evaluation touches the session flag. -/
theorem step_session (w : World) (e : Event) (he : e ≠ .restart) :
    ((step newURL w e).1.showedTipInCurrentSession = w.showedTipInCurrentSession ∧
      (step newURL w e).2.selected = .NONE) ∨
    (w.showedTipInCurrentSession = false ∧
      (step newURL w e).1.showedTipInCurrentSession = true) := by
  cases e with
  | evaluate o =>
    show ((maybeShowTipForTab newURL w o).1.showedTipInCurrentSession = _ ∧
      (maybeShowTipForTab newURL w o).2 = .NONE) ∨ _
    rcases maybeShowTipForTab_cases newURL w o with h1 | h1 | ⟨tip, -, hs, -, -, -, -, h1⟩
    · left; rw [h1]; exact ⟨rfl, rfl⟩
    · left; rw [h1]; exact ⟨rfl, rfl⟩
    · right
      refine ⟨hs, ?_⟩
      show (maybeShowTipForTab newURL w o).1.showedTipInCurrentSession = true
      rw [h1]; rfl
  | timeout =>
    left
    show (timerFired w).showedTipInCurrentSession = _ ∧ _
    unfold timerFired
    cases w.timers <;> exact ⟨rfl, rfl⟩
  | behaviorRequested => left; exact ⟨rfl, rfl⟩
  | resultsRequested engines =>
    left
    obtain ⟨hw, hsel, -⟩ := step_resultsRequested newURL w engines
    rw [hw]
    exact ⟨rfl, hsel⟩
  | engagement state =>
    left
    simp only [step]
    cases hr : onEngagement w state with
    | error msg => exact ⟨rfl, rfl⟩
    | ok w1 =>
      rcases onEngagement_ok w w1 state hr with h1 | ⟨-, -, -, h1⟩ <;> rw [h1] <;>
        exact ⟨rfl, rfl⟩
  | restart => exact absurd rfl he

/-- Within one session the selections are bounded by the session flag: none
once it is set, at most one before; and a set flag stays set. -/
theorem run_session (evs : List Event) (w : World) (h : noRestart evs = true) :
    selectedCount (run newURL w evs).2 ≤ (!w.showedTipInCurrentSession).toNat ∧
    (w.showedTipInCurrentSession = true →
      (run newURL w evs).1.showedTipInCurrentSession = true) := by
  induction evs generalizing w with
  | nil =>
    exact ⟨by simp [run, selectedCount], fun hs => hs⟩
  | cons e es ih =>
    simp only [noRestart, List.all_cons, Bool.and_eq_true, bne_iff_ne, ne_eq] at h
    have ih1 := ih (step newURL w e).1 (by simpa [noRestart] using h.2)
    simp only [run, selectedCount, List.filter_cons] at ih1 ⊢
    rcases step_session newURL w e h.1 with ⟨hs, hsel⟩ | ⟨hs, hs1⟩
    · rw [hs] at ih1
      rw [hsel]
      simpa [truthy_NONE] using ih1
    · rw [hs1] at ih1
      rw [hs]
      refine ⟨?_, fun hh => by cases hh⟩
      have h0 := ih1.1
      simp only [Bool.not_true, Bool.toNat_false, Nat.le_zero_eq] at h0
      split_ifs
      · simp only [List.length_cons]
        simp only [Bool.not_false, Bool.toNat_true]
        omega
      · simp only [Bool.not_false, Bool.toNat_true]
        omega

/-- C2. One tip per session: in every sequence of events without a restart, from
every state, at most one evaluation selects a tip; an evaluation that selects
`ONBOARD` or `REDIRECT` sets `showedTipInCurrentSession`, the flag then stays
true through every restart-free continuation, no evaluation of the continuation
selects a tip, and every further evaluation, for every tab URL and every oracle
answer, returns the state unchanged (no counter increment, nothing armed or
scheduled) and selects no tip. -/
theorem one_tip_per_session (w : World) (o : Oracles) (evs : List Event)
    (h : noRestart evs = true) :
    selectedCount (run newURL w evs).2 ≤ 1 ∧
    ((maybeShowTipForTab newURL w o).2 ≠ .NONE →
      (maybeShowTipForTab newURL w o).1.showedTipInCurrentSession = true ∧
      (run newURL (maybeShowTipForTab newURL w o).1 evs).1.showedTipInCurrentSession = true ∧
      selectedCount (run newURL (maybeShowTipForTab newURL w o).1 evs).2 = 0 ∧
      ∀ o1 : Oracles,
        maybeShowTipForTab newURL (run newURL (maybeShowTipForTab newURL w o).1 evs).1 o1 =
          ((run newURL (maybeShowTipForTab newURL w o).1 evs).1, .NONE)) := by
  constructor
  · have h1 := (run_session newURL evs w h).1
    have h2 := Bool.toNat_le (!w.showedTipInCurrentSession)
    omega
  · intro hsel
    have hs := session_of_selected newURL w o hsel
    have hr := run_session newURL evs (maybeShowTipForTab newURL w o).1 h
    refine ⟨hs, hr.2 hs, ?_, fun o1 => maybeShowTipForTab_of_session newURL _ o1 (hr.2 hs)⟩
    have h1 := hr.1
    rw [hs] at h1
    simpa using h1

/-- C2 on a session with three qualifying navigations: the first evaluation
selects the onboarding tip, the two later ones (a search homepage and the new
tab page again) select nothing. -/
theorem one_tip_per_session_witness :
    noRestart [ .evaluate ⟨"https://www.google.com/", false, 0, 172800000,
                  [⟨"Google", true, "g.ico"⟩]⟩,
                .timeout, .resultsRequested [⟨"Google", true, "g.ico"⟩],
                .evaluate ⟨"about:newtab", false, 0, 172800000, []⟩ ] = true ∧
    (maybeShowTipForTab newURL_plain (boot .TREATMENT none)
      ⟨"about:newtab", false, 0, 172800000, []⟩).2 = .ONBOARD ∧
    selectedCount (run newURL_plain
      (maybeShowTipForTab newURL_plain (boot .TREATMENT none)
        ⟨"about:newtab", false, 0, 172800000, []⟩).1
      [ .evaluate ⟨"https://www.google.com/", false, 0, 172800000,
          [⟨"Google", true, "g.ico"⟩]⟩,
        .timeout, .resultsRequested [⟨"Google", true, "g.ico"⟩],
        .evaluate ⟨"about:newtab", false, 0, 172800000, []⟩ ]).2 = 0 :=
  ⟨by decide, by decide,
    ((one_tip_per_session newURL_plain (boot .TREATMENT none)
      ⟨"about:newtab", false, 0, 172800000, []⟩
      [ .evaluate ⟨"https://www.google.com/", false, 0, 172800000,
          [⟨"Google", true, "g.ico"⟩]⟩,
        .timeout, .resultsRequested [⟨"Google", true, "g.ico"⟩],
        .evaluate ⟨"about:newtab", false, 0, 172800000, []⟩ ]
      (by decide)).2 (by decide)).2.2.1⟩

/-! ## Event sequences: acknowledgment -/

/-- After an acknowledgment the counter the script works with is the maximum. -/
theorem tipsShownCount_of_acknowledged (w : World) (h : Acknowledged w) :
    tipsShownCount w = MAX_SHOWN_COUNT := by
  unfold tipsShownCount
  rcases h with ⟨hp, hs | hs⟩ <;> simp [hs, hp]

/-- In an acknowledged state an evaluation selects no tip and at most loads the
cache. -/
theorem maybeShowTipForTab_of_acknowledged (w : World) (o : Oracles) (h : Acknowledged w) :
    maybeShowTipForTab newURL w o = (w, .NONE) ∨
    maybeShowTipForTab newURL w o = (loaded w, .NONE) := by
  rcases maybeShowTipForTab_cases newURL w o with h1 | h1 | ⟨tip, -, -, hlt, -⟩
  · exact Or.inl h1
  · exact Or.inr h1
  · rw [tipsShownCount_of_acknowledged w h] at hlt
    exact absurd hlt (Nat.lt_irrefl _)

/-- Loading the cache keeps a state acknowledged. -/
theorem acknowledged_loaded (w : World) (h : Acknowledged w) : Acknowledged (loaded w) := by
  refine ⟨h.1, Or.inr ?_⟩
  show some (tipsShownCount w) = some MAX_SHOWN_COUNT
  rw [tipsShownCount_of_acknowledged w h]

/-- Every event keeps an acknowledged state acknowledged and selects no tip. -/
theorem step_acknowledged (w : World) (e : Event) (h : Acknowledged w) :
    Acknowledged (step newURL w e).1 ∧ (step newURL w e).2.selected = .NONE := by
  cases e with
  | evaluate o =>
    show Acknowledged (maybeShowTipForTab newURL w o).1 ∧ (maybeShowTipForTab newURL w o).2 = _
    rcases maybeShowTipForTab_of_acknowledged newURL w o h with h1 | h1 <;> rw [h1]
    · exact ⟨h, rfl⟩
    · exact ⟨acknowledged_loaded w h, rfl⟩
  | timeout =>
    show Acknowledged (timerFired w) ∧ _
    unfold timerFired
    cases w.timers <;> exact ⟨h, rfl⟩
  | behaviorRequested => exact ⟨h, rfl⟩
  | resultsRequested engines =>
    obtain ⟨hw, hsel, -⟩ := step_resultsRequested newURL w engines
    rw [hw]
    exact ⟨h, hsel⟩
  | engagement state =>
    simp only [step]
    cases hr : onEngagement w state with
    | error msg => exact ⟨h, rfl⟩
    | ok w1 =>
      rcases onEngagement_ok w w1 state hr with h1 | ⟨-, -, -, h1⟩ <;> rw [h1]
      · exact ⟨h, rfl⟩
      · exact ⟨⟨rfl, Or.inr rfl⟩, rfl⟩
  | restart => exact ⟨⟨h.1, Or.inl rfl⟩, rfl⟩

/-- An acknowledged state stays acknowledged through every sequence of events,
and no evaluation of the sequence selects a tip. -/
theorem run_acknowledged (evs : List Event) (w : World) (h : Acknowledged w) :
    Acknowledged (run newURL w evs).1 ∧ selectedCount (run newURL w evs).2 = 0 := by
  induction evs generalizing w with
  | nil => exact ⟨h, rfl⟩
  | cons e es ih =>
    obtain ⟨h1, h2⟩ := step_acknowledged newURL w e h
    obtain ⟨h3, h4⟩ := ih (step newURL w e).1 h1
    refine ⟨h3, ?_⟩
    simp only [run, selectedCount, List.filter_cons, h2, truthy_NONE] at h4 ⊢
    simpa using h4

/-- C3. Acknowledgment is permanent and idempotent: once `onEngagement` has run
with `state = "engagement"` and `showedTipInCurrentEngagement` true, the counter
is 4 in memory and in local storage; after every sequence of later events
(restarts included) it is still exactly 4, no evaluation of the sequence has
selected a tip, every further evaluation, for every tab URL and every oracle
answer, selects no tip, arms and schedules nothing and leaves the counter at 4,
and every further `onEngagement` call with any `state` leaves it at 4. -/
theorem acknowledgment_permanent (w w1 : World) (evs : List Event)
    (hflag : w.showedTipInCurrentEngagement = true)
    (hrun : onEngagement w "engagement" = .ok w1) :
    tipsShownCount w1 = 4 ∧ w1.persisted = some 4 ∧
    selectedCount (run newURL w1 evs).2 = 0 ∧
    tipsShownCount (run newURL w1 evs).1 = 4 ∧
    (run newURL w1 evs).1.persisted = some 4 ∧
    (∀ o : Oracles,
      (maybeShowTipForTab newURL (run newURL w1 evs).1 o).2 = .NONE ∧
      (maybeShowTipForTab newURL (run newURL w1 evs).1 o).1.currentTip =
        (run newURL w1 evs).1.currentTip ∧
      (maybeShowTipForTab newURL (run newURL w1 evs).1 o).1.timers =
        (run newURL w1 evs).1.timers ∧
      tipsShownCount (maybeShowTipForTab newURL (run newURL w1 evs).1 o).1 = 4 ∧
      (maybeShowTipForTab newURL (run newURL w1 evs).1 o).1.persisted = some 4) ∧
    (∀ state : String,
      tipsShownCount (step newURL (run newURL w1 evs).1 (.engagement state)).1 = 4 ∧
      (step newURL (run newURL w1 evs).1 (.engagement state)).1.persisted = some 4) := by
  have hack : Acknowledged w1 := by
    unfold onEngagement at hrun
    simp only [hflag, beq_self_eq_true, Bool.and_self, if_true] at hrun
    cases hs : w.storage with
    | none => simp [hs] at hrun
    | some n =>
      simp only [hs] at hrun
      injection hrun with hrun
      rw [← hrun]
      exact ⟨rfl, Or.inr rfl⟩
  have hfin := run_acknowledged newURL evs w1 hack
  have key : ∀ v : World, Acknowledged v → tipsShownCount v = 4 ∧ v.persisted = some 4 :=
    fun v hv => ⟨tipsShownCount_of_acknowledged v hv, hv.1⟩
  refine ⟨(key w1 hack).1, (key w1 hack).2, hfin.2, (key _ hfin.1).1, (key _ hfin.1).2,
    fun o => ?_, fun state => key _ (step_acknowledged newURL _ _ hfin.1).1⟩
  rcases maybeShowTipForTab_of_acknowledged newURL _ o hfin.1 with h1 | h1 <;> rw [h1]
  · exact ⟨rfl, rfl, rfl, (key _ hfin.1).1, (key _ hfin.1).2⟩
  · exact ⟨rfl, rfl, rfl, (key _ (acknowledged_loaded _ hfin.1)).1,
      (key _ (acknowledged_loaded _ hfin.1)).2⟩

/-- C3 on a full trace: a tip is selected, armed and handed over, the user
engages, and after a restart a qualifying tab selects nothing. -/
theorem acknowledgment_permanent_witness :
    onEngagement
      { boot .TREATMENT (some 1) with
          storage := some 1, showedTipInCurrentSession := true,
          showedTipInCurrentEngagement := true }
      "engagement" =
      .ok { boot .TREATMENT (some 4) with storage := some 4, showedTipInCurrentSession := true } ∧
    selectedCount (run newURL_plain
      { boot .TREATMENT (some 4) with storage := some 4, showedTipInCurrentSession := true }
      [ .restart, .evaluate ⟨"about:newtab", false, 0, 172800000, []⟩,
        .engagement "engagement" ]).2 = 0 :=
  ⟨rfl,
    (acknowledgment_permanent newURL_plain
      { boot .TREATMENT (some 1) with
          storage := some 1, showedTipInCurrentSession := true,
          showedTipInCurrentEngagement := true }
      { boot .TREATMENT (some 4) with storage := some 4, showedTipInCurrentSession := true }
      [ .restart, .evaluate ⟨"about:newtab", false, 0, 172800000, []⟩,
        .engagement "engagement" ]
      rfl rfl).2.2.1⟩

/-! ## Control and Treatment -/

/-- Every event keeps a Control process idle. -/
theorem step_controlIdle (w : World) (e : Event) (h : ControlIdle w) :
    ControlIdle (step newURL w e).1 := by
  obtain ⟨hb, hc, ht, hs⟩ := h
  cases e with
  | evaluate o =>
    show ControlIdle (maybeShowTipForTab newURL w o).1
    rcases maybeShowTipForTab_cases newURL w o with h1 | h1 | ⟨tip, -, -, -, -, -, -, h1⟩ <;>
      rw [h1]
    · exact ⟨hb, hc, ht, hs⟩
    · exact ⟨hb, hc, ht, hs⟩
    · refine ⟨hb, hc, ?_, hs⟩
      simp [showTip, loaded, hb, ht]
  | timeout =>
    show ControlIdle (timerFired w)
    unfold timerFired
    rw [ht]
    exact ⟨hb, hc, ht, hs⟩
  | behaviorRequested => exact ⟨hb, hc, ht, hs⟩
  | resultsRequested engines =>
    rw [(step_resultsRequested newURL w engines).1]
    exact ⟨hb, rfl, ht, hs⟩
  | engagement state =>
    simp only [step]
    cases hr : onEngagement w state with
    | error msg => exact ⟨hb, hc, ht, hs⟩
    | ok w1 =>
      rcases onEngagement_ok w w1 state hr with h1 | ⟨-, -, -, h1⟩ <;> rw [h1] <;>
        exact ⟨hb, hc, ht, hs⟩
  | restart => exact ⟨hb, rfl, rfl, hs⟩

/-- A Control process stays idle through every sequence of events. -/
theorem run_controlIdle (evs : List Event) (w : World) (h : ControlIdle w) :
    ControlIdle (run newURL w evs).1 := by
  induction evs generalizing w with
  | nil => exact h
  | cons e es ih => exact ih (step newURL w e).1 (step_controlIdle newURL w e h)

/-- Closed form of an evaluation: it returns at once when the session flag is
set, it only loads the cache when one of the gates closes or no tip applies,
and it shows the chosen tip otherwise. -/
theorem maybeShowTipForTab_eq (w : World) (o : Oracles) :
    maybeShowTipForTab newURL w o =
      if w.showedTipInCurrentSession = true then (w, .NONE)
      else if tipsShownCount w ≥ MAX_SHOWN_COUNT ∨ o.isBrowserShowingNotification = true ∨
          o.now - o.lastBrowserUpdateDate ≤ LAST_UPDATE_THRESHOLD_MS ∨
          chooseTip newURL o = none then (loaded w, .NONE)
      else (showTip (loaded w) (tipsShownCount w) ((chooseTip newURL o).getD .NONE),
        (chooseTip newURL o).getD .NONE) := by
  unfold maybeShowTipForTab
  by_cases h1 : w.showedTipInCurrentSession = true
  · rw [if_pos h1, if_pos h1]
  · rw [if_neg h1, if_neg h1]
    dsimp only
    by_cases h2 : tipsShownCount w ≥ MAX_SHOWN_COUNT
    · rw [if_pos h2, if_pos (Or.inl h2)]
    · rw [if_neg h2]
      by_cases h3 : o.isBrowserShowingNotification = true
      · rw [if_pos h3, if_pos (Or.inr (Or.inl h3))]
      · rw [if_neg h3]
        by_cases h4 : o.now - o.lastBrowserUpdateDate ≤ LAST_UPDATE_THRESHOLD_MS
        · rw [if_pos h4, if_pos (Or.inr (Or.inr (Or.inl h4)))]
        · rw [if_neg h4]
          cases h5 : chooseTip newURL o with
          | none => rw [if_pos (Or.inr (Or.inr (Or.inr rfl)))]
          | some tip =>
            rw [if_neg (by simp [h2, h3, h4])]
            rfl

/-- The outcome of an evaluation does not depend on the study branch, except
for the timer that Treatment schedules when a tip is selected. -/
theorem maybeShowTipForTab_branch (w : World) (o : Oracles) :
    ∃ (r : TIPS) (sess : Bool) (sto per : Option Nat) (tel : List TIPS),
      ∀ b : BRANCHES,
        maybeShowTipForTab newURL { w with studyBranch := b } o =
          ({ studyBranch := b
             currentTip := w.currentTip
             showedTipInCurrentEngagement := w.showedTipInCurrentEngagement
             showedTipInCurrentSession := sess
             storage := sto
             persisted := per
             timers := if b = .TREATMENT ∧ r ≠ .NONE then w.timers ++ [r] else w.timers
             telemetry := tel
             searches := w.searches }, r) := by
  by_cases h1 : w.showedTipInCurrentSession = true
  · refine ⟨.NONE, w.showedTipInCurrentSession, w.storage, w.persisted, w.telemetry, fun b => ?_⟩
    have h1b : ({ w with studyBranch := b } : World).showedTipInCurrentSession = true := h1
    rw [maybeShowTipForTab_eq, if_pos h1b]
    simp
  · by_cases h2 : tipsShownCount w ≥ MAX_SHOWN_COUNT ∨ o.isBrowserShowingNotification = true ∨
        o.now - o.lastBrowserUpdateDate ≤ LAST_UPDATE_THRESHOLD_MS ∨ chooseTip newURL o = none
    · refine ⟨.NONE, w.showedTipInCurrentSession, some (tipsShownCount w), w.persisted,
        w.telemetry, fun b => ?_⟩
      have h1b : ¬ ({ w with studyBranch := b } : World).showedTipInCurrentSession = true := h1
      have h2b : tipsShownCount { w with studyBranch := b } ≥ MAX_SHOWN_COUNT ∨
          o.isBrowserShowingNotification = true ∨
          o.now - o.lastBrowserUpdateDate ≤ LAST_UPDATE_THRESHOLD_MS ∨
          chooseTip newURL o = none := h2
      rw [maybeShowTipForTab_eq, if_neg h1b, if_pos h2b]
      have hl : loaded { w with studyBranch := b } =
          { w with studyBranch := b, storage := some (tipsShownCount w) } := rfl
      rw [hl]
      simp
    · cases h5 : chooseTip newURL o with
      | none => exact absurd (Or.inr (Or.inr (Or.inr h5))) h2
      | some tip =>
        refine ⟨tip, true, some (tipsShownCount w + 1), some (tipsShownCount w + 1),
          tip :: w.telemetry, fun b => ?_⟩
        have ht : tip ≠ .NONE := by
          intro hh
          have := chooseTip_truthy newURL o tip h5
          rw [hh] at this
          cases this
        have h1b : ¬ ({ w with studyBranch := b } : World).showedTipInCurrentSession = true := h1
        have h2b : ¬ (tipsShownCount { w with studyBranch := b } ≥ MAX_SHOWN_COUNT ∨
            o.isBrowserShowingNotification = true ∨
            o.now - o.lastBrowserUpdateDate ≤ LAST_UPDATE_THRESHOLD_MS ∨
            chooseTip newURL o = none) := h2
        rw [maybeShowTipForTab_eq, if_neg h1b, if_neg h2b, h5]
        have hl : showTip (loaded { w with studyBranch := b })
            (tipsShownCount { w with studyBranch := b }) ((some tip).getD .NONE) =
            { w with
                studyBranch := b
                showedTipInCurrentSession := true
                storage := some (tipsShownCount w + 1)
                persisted := some (tipsShownCount w + 1)
                telemetry := tip :: w.telemetry
                timers := if b = .TREATMENT then w.timers ++ [tip] else w.timers } := rfl
        rw [hl]
        simp [ht]

/-- C8. Control/Treatment parity: for every state, tab URL and oracle answers,
`maybeShowTipForTab` run with `studyBranch` Control and with Treatment selects
the same tip and ends with the same `showedTipInCurrentSession`, the same cached
and persisted `tipsShownCount` and the same telemetry; both leave `currentTip`,
the engagement flag and the search log as they were; the Control run leaves the
pending timers as they were, while the Treatment run appends one timer for the
selected tip exactly when a tip is selected.  A Control process therefore never
arms a tip: after every sequence of events from process start `currentTip` is
`NONE`, no timer is pending, no search was started and `onBehaviorRequested`
answers "inactive". -/
theorem control_treatment_parity (w : World) (o : Oracles) (persisted : Option Nat)
    (evs : List Event) :
    (maybeShowTipForTab newURL { w with studyBranch := .CONTROL } o).2 =
      (maybeShowTipForTab newURL { w with studyBranch := .TREATMENT } o).2 ∧
    (maybeShowTipForTab newURL { w with studyBranch := .CONTROL } o).1.showedTipInCurrentSession =
      (maybeShowTipForTab newURL { w with studyBranch := .TREATMENT } o).1.showedTipInCurrentSession ∧
    (maybeShowTipForTab newURL { w with studyBranch := .CONTROL } o).1.storage =
      (maybeShowTipForTab newURL { w with studyBranch := .TREATMENT } o).1.storage ∧
    (maybeShowTipForTab newURL { w with studyBranch := .CONTROL } o).1.persisted =
      (maybeShowTipForTab newURL { w with studyBranch := .TREATMENT } o).1.persisted ∧
    (maybeShowTipForTab newURL { w with studyBranch := .CONTROL } o).1.telemetry =
      (maybeShowTipForTab newURL { w with studyBranch := .TREATMENT } o).1.telemetry ∧
    (maybeShowTipForTab newURL { w with studyBranch := .CONTROL } o).1.currentTip = w.currentTip ∧
    (maybeShowTipForTab newURL { w with studyBranch := .TREATMENT } o).1.currentTip =
      w.currentTip ∧
    (maybeShowTipForTab newURL { w with studyBranch := .CONTROL } o).1.showedTipInCurrentEngagement =
      w.showedTipInCurrentEngagement ∧
    (maybeShowTipForTab newURL { w with studyBranch := .TREATMENT } o).1.showedTipInCurrentEngagement =
      w.showedTipInCurrentEngagement ∧
    (maybeShowTipForTab newURL { w with studyBranch := .CONTROL } o).1.searches = w.searches ∧
    (maybeShowTipForTab newURL { w with studyBranch := .TREATMENT } o).1.searches = w.searches ∧
    (maybeShowTipForTab newURL { w with studyBranch := .CONTROL } o).1.timers = w.timers ∧
    (maybeShowTipForTab newURL { w with studyBranch := .TREATMENT } o).1.timers =
      (if (maybeShowTipForTab newURL { w with studyBranch := .TREATMENT } o).2 = .NONE
        then w.timers
        else w.timers ++ [(maybeShowTipForTab newURL { w with studyBranch := .TREATMENT } o).2]) ∧
    (run newURL (boot .CONTROL persisted) evs).1.currentTip = .NONE ∧
    (run newURL (boot .CONTROL persisted) evs).1.timers = [] ∧
    (run newURL (boot .CONTROL persisted) evs).1.searches = [] ∧
    onBehaviorRequested (run newURL (boot .CONTROL persisted) evs).1 = "inactive" := by
  have hidle := run_controlIdle newURL evs (boot .CONTROL persisted) ⟨rfl, rfl, rfl, rfl⟩
  have hbeh : onBehaviorRequested (run newURL (boot .CONTROL persisted) evs).1 = "inactive" := by
    unfold onBehaviorRequested
    rw [hidle.2.1]
    rfl
  obtain ⟨r, sess, sto, per, tel, hr⟩ := maybeShowTipForTab_branch newURL w o
  rw [hr .CONTROL, hr .TREATMENT]
  refine ⟨rfl, rfl, rfl, rfl, rfl, rfl, rfl, rfl, rfl, rfl, rfl, ?_, ?_, hidle.2.1, hidle.2.2.1,
    hidle.2.2.2, hbeh⟩
  · simp
  · by_cases h : r = .NONE <;> simp [h]

/-! ## Engagement tracking on protocol-respecting runs -/

/-- Every event that follows the host protocol keeps the cache ready. -/
theorem step_cacheReady (w : World) (e : Event) (h : CacheReady w)
    (hp : hostProtocol newURL w [e] = true) : CacheReady (step newURL w e).1 := by
  cases e with
  | evaluate o =>
    show CacheReady (maybeShowTipForTab newURL w o).1
    rcases maybeShowTipForTab_cases newURL w o with h1 | h1 | ⟨tip, -, -, -, -, -, -, h1⟩ <;>
      rw [h1]
    · exact h
    · intro _
      simp [loaded]
    · intro _
      simp [showTip]
  | timeout =>
    show CacheReady (timerFired w)
    unfold timerFired
    cases ht : w.timers with
    | nil => exact h
    | cons tip rest =>
      intro _
      exact h (Or.inr (Or.inr (by simp [ht])))
  | behaviorRequested => exact h
  | resultsRequested engines =>
    rw [(step_resultsRequested newURL w engines).1]
    intro _
    apply h
    right; left
    simp only [hostProtocol, Bool.and_true, bne_iff_ne, ne_eq] at hp
    unfold onBehaviorRequested at hp
    cases ht : w.currentTip.truthy with
    | true => rfl
    | false => simp [ht] at hp
  | engagement state =>
    simp only [step]
    cases hr : onEngagement w state with
    | error msg => exact h
    | ok w1 =>
      rcases onEngagement_ok w w1 state hr with h1 | ⟨-, -, -, h1⟩ <;> rw [h1]
      · intro hx
        apply h
        rcases hx with hx | hx | hx
        · cases hx
        · exact Or.inr (Or.inl hx)
        · exact Or.inr (Or.inr hx)
      · intro _
        simp
  | restart =>
    intro hx
    rcases hx with hx | hx | hx
    · cases hx
    · cases hx
    · exact absurd rfl hx

/-- The cache stays ready through every protocol-respecting sequence. -/
theorem run_cacheReady (evs : List Event) (w : World) (h : CacheReady w)
    (hp : hostProtocol newURL w evs = true) : CacheReady (run newURL w evs).1 := by
  induction evs generalizing w with
  | nil => exact h
  | cons e es ih =>
    simp only [hostProtocol, Bool.and_eq_true] at hp
    have h1 : hostProtocol newURL w [e] = true := by
      simp only [hostProtocol, Bool.and_true]
      exact hp.1
    exact ih (step newURL w e).1 (step_cacheReady newURL w e h h1) hp.2

/-- C9. Engagement tracking is always reset: after every sequence of events that
a process receives from its start (evaluations, timer callbacks, behavior
requests, results requests made while a tip is armed, engagement signals and
restarts), the call `onEngagement(state)` completes, for every `state` value
("start", "engagement", "abandonment" or any other), with
`showedTipInCurrentEngagement = false`, whether the flag was true or false and
whether the cached storage was loaded or not: when the acknowledgment branch is
taken (flag true and `state = "engagement"`) the counter is forced to the
maximum in the cache and in local storage, and otherwise nothing but the flag
changes. -/
theorem engagement_always_reset (branch : BRANCHES) (persisted : Option Nat)
    (evs : List Event) (state : String)
    (hp : hostProtocol newURL (boot branch persisted) evs = true) :
    ∃ w1, onEngagement (run newURL (boot branch persisted) evs).1 state = .ok w1 ∧
      w1.showedTipInCurrentEngagement = false ∧
      (((run newURL (boot branch persisted) evs).1.showedTipInCurrentEngagement = true ∧
          state = "engagement") →
        w1.storage = some MAX_SHOWN_COUNT ∧ w1.persisted = some MAX_SHOWN_COUNT) ∧
      (¬ ((run newURL (boot branch persisted) evs).1.showedTipInCurrentEngagement = true ∧
          state = "engagement") →
        w1 = { (run newURL (boot branch persisted) evs).1 with
                showedTipInCurrentEngagement := false }) := by
  have h0 : CacheReady (boot branch persisted) := by
    intro hx
    rcases hx with hx | hx | hx
    · cases hx
    · cases hx
    · exact absurd rfl hx
  have hr := run_cacheReady newURL evs (boot branch persisted) h0 hp
  exact onEngagement_completes _ state (fun hf => hr (Or.inl hf))

/-- C9 on both outcomes: after a tip was selected, armed and handed over, the
calls with "engagement" (acknowledgment) and with "abandonment" both return with
the flag reset; and in a fresh process, where the cache is not loaded and the
flag is false, the call with "engagement" returns with the flag reset too. -/
theorem engagement_always_reset_witness :
    hostProtocol newURL_plain (boot .TREATMENT none)
      [ .evaluate ⟨"about:newtab", false, 0, 172800000, []⟩, .timeout, .behaviorRequested,
        .resultsRequested [⟨"Google", true, "g.ico"⟩] ] = true ∧
    (run newURL_plain (boot .TREATMENT none)
      [ .evaluate ⟨"about:newtab", false, 0, 172800000, []⟩, .timeout, .behaviorRequested,
        .resultsRequested [⟨"Google", true, "g.ico"⟩] ]).1.showedTipInCurrentEngagement = true ∧
    (∃ w1, onEngagement (run newURL_plain (boot .TREATMENT none)
        [ .evaluate ⟨"about:newtab", false, 0, 172800000, []⟩, .timeout, .behaviorRequested,
          .resultsRequested [⟨"Google", true, "g.ico"⟩] ]).1 "engagement" = .ok w1 ∧
      w1.showedTipInCurrentEngagement = false) ∧
    (∃ w1, onEngagement (run newURL_plain (boot .TREATMENT none)
        [ .evaluate ⟨"about:newtab", false, 0, 172800000, []⟩, .timeout, .behaviorRequested,
          .resultsRequested [⟨"Google", true, "g.ico"⟩] ]).1 "abandonment" = .ok w1 ∧
      w1.showedTipInCurrentEngagement = false) ∧
    (∃ w1, onEngagement (run newURL_plain (boot .TREATMENT none) []).1 "engagement" = .ok w1 ∧
      w1.showedTipInCurrentEngagement = false) :=
  ⟨by decide, by decide,
    (engagement_always_reset newURL_plain .TREATMENT none
      [ .evaluate ⟨"about:newtab", false, 0, 172800000, []⟩, .timeout, .behaviorRequested,
        .resultsRequested [⟨"Google", true, "g.ico"⟩] ] "engagement" (by decide)).imp
      (fun _ hw => ⟨hw.1, hw.2.1⟩),
    (engagement_always_reset newURL_plain .TREATMENT none
      [ .evaluate ⟨"about:newtab", false, 0, 172800000, []⟩, .timeout, .behaviorRequested,
        .resultsRequested [⟨"Google", true, "g.ico"⟩] ] "abandonment" (by decide)).imp
      (fun _ hw => ⟨hw.1, hw.2.1⟩),
    (engagement_always_reset newURL_plain .TREATMENT none [] "engagement" (by decide)).imp
      (fun _ hw => ⟨hw.1, hw.2.1⟩)⟩

end Sequences

end UrlbarTips
